import Mathlib

/-!
Verification of the streaming relay subsystem of the order-flow
visualizer backend: tick aggregation (`aggregate_ticks` in
`backend/main.py` and `backend/main_v2.py`), broadcast fan-out
(`broadcast_to_clients`), the upstream feed client's reconnect policy and
message processing (`DhanWebSocketClient` in `backend/main.py`), the
symbol resolution chain and symbol search (`SymbolManager` in
`backend/symbol_manager.py`), and the viewer-command handling of the
websocket endpoint.

Conventions of the shallow embedding:
* wall-clock instants are integers counted in milliseconds, so the
  100 ms aggregation window guard `current_time - last_aggregation_time
  < 0.1` (seconds) becomes `now - last < 100`;
* prices are integers (the aggregation only uses the price as an exact
  grouping key, never arithmetically);
* quantities are natural numbers, per the data model (quantity ≥ 0);
  Python `//` on nonnegative integers agrees with `Nat` division;
* Python `dict`s keep insertion order, so they are embedded as
  association lists where a new key is appended at the tail;
* network calls, websocket sends and the wall clock are oracles passed
  in as function arguments.
-/

namespace OrderFlow

/-- Trade side. `backend/main.py` carries the side as a string and tests
`side == "buy"`; every non-buy string (including the default
`"unknown"` from `main.py:251`) takes the other branch, which this
three-valued type makes explicit. -/
inductive Side where
  | buy
  | sell
  | unknown
deriving DecidableEq, Repr

/-- One raw tick, mirroring the `TradeData` pydantic model
(`main.py:58-62`). -/
structure TradeData where
  price : Int
  quantity : Nat
  side : Side
  timestamp : Int
deriving DecidableEq, Repr

/-- One per-price aggregation record, mirroring the per-price dict
created in `aggregate_ticks` (`main.py:289-296`, `main_v2.py:146-153`). -/
structure AggEntry where
  total_volume : Nat
  buy_volume : Nat
  sell_volume : Nat
  trade_count : Nat
  timestamp : Int
deriving DecidableEq, Repr

/-- Folding one tick into its price bucket, v1 (`main.py:298-304`):
`total_volume += q`, `trade_count += 1`, then `buy_volume += q` when
`side == "buy"` and otherwise `sell_volume += q` (so `sell` and
`unknown` ticks both land entirely in `sell_volume`). -/
def addTick_v1 (a : AggEntry) (t : TradeData) : AggEntry :=
  let a' := { a with
    total_volume := a.total_volume + t.quantity,
    trade_count := a.trade_count + 1 }
  match t.side with
  | Side.buy => { a' with buy_volume := a'.buy_volume + t.quantity }
  | _ => { a' with sell_volume := a'.sell_volume + t.quantity }

/-- Folding one tick into its price bucket, v2 (`main_v2.py:155-160`):
every tick, whatever its side, is split `buy += q // 2`,
`sell += q - q // 2`. -/
def addTick_v2 (a : AggEntry) (t : TradeData) : AggEntry :=
  { a with
    total_volume := a.total_volume + t.quantity,
    trade_count := a.trade_count + 1,
    buy_volume := a.buy_volume + t.quantity / 2,
    sell_volume := a.sell_volume + (t.quantity - t.quantity / 2) }

/-- `if price not in aggregated_trades: aggregated_trades[price] = {...}`
followed by the in-place update: look the price up in the insertion-
ordered dict, create a fresh entry (via `mkEmpty`) on a miss, and apply
the per-tick update `step`. -/
def updateTrades (step : AggEntry → TradeData → AggEntry)
    (mkEmpty : TradeData → AggEntry) :
    List (Int × AggEntry) → TradeData → List (Int × AggEntry)
  | [], t => [(t.price, step (mkEmpty t) t)]
  | (p, a) :: rest, t =>
    if p = t.price then (p, step a t) :: rest
    else (p, a) :: updateTrades step mkEmpty rest t

/-- The grouping loop `for tick in list(tick_buffer)` of v1
(`main.py:284-304`); the fresh entry's timestamp is `current_time`
(`main.py:295`). -/
def aggregateTrades_v1 (now : Int) (buffer : List TradeData) :
    List (Int × AggEntry) :=
  buffer.foldl (updateTrades addTick_v1 (fun _ => ⟨0, 0, 0, 0, now⟩)) []

/-- The grouping loop of v2 (`main_v2.py:141-160`); the fresh entry's
timestamp is the tick's own timestamp (`main_v2.py:144,152`). -/
def aggregateTrades_v2 (buffer : List TradeData) :
    List (Int × AggEntry) :=
  buffer.foldl
    (updateTrades addTick_v2 (fun t => ⟨0, 0, 0, 0, t.timestamp⟩)) []

/-- `aggregate_ticks` of `main.py:273-316`: a flush is a no-op (`none`)
when fewer than 100 ms have elapsed since the previous flush; otherwise
the buffered ticks are grouped by price and the resulting records are
broadcast (the broadcast itself is skipped when the result is empty,
which only happens for an empty buffer). -/
def aggregate_ticks_v1 (now last : Int) (buffer : List TradeData) :
    Option (List (Int × AggEntry)) :=
  if now - last < 100 then none
  else some (aggregateTrades_v1 now buffer)

/-- `aggregate_ticks` of `main_v2.py:127-170`: same window guard, plus
an explicit early return on an empty buffer (`main_v2.py:135-136`). -/
def aggregate_ticks_v2 (now last : Int) (buffer : List TradeData) :
    Option (List (Int × AggEntry)) :=
  if now - last < 100 then none
  else if buffer = [] then none
  else some (aggregateTrades_v2 buffer)

/-- Total `total_volume` over an aggregation result. -/
def sumVolume (m : List (Int × AggEntry)) : Nat :=
  (m.map (fun pa => pa.2.total_volume)).sum

/-- Total quantity over a tick buffer. -/
def sumQty (l : List TradeData) : Nat :=
  (l.map TradeData.quantity).sum

theorem sumVolume_nil : sumVolume [] = 0 := rfl

theorem sumVolume_cons (pa : Int × AggEntry) (m : List (Int × AggEntry)) :
    sumVolume (pa :: m) = pa.2.total_volume + sumVolume m := by
  simp [sumVolume]

theorem sumVolume_updateTrades
    (step : AggEntry → TradeData → AggEntry)
    (mkEmpty : TradeData → AggEntry)
    (hstep : ∀ a t, (step a t).total_volume = a.total_volume + t.quantity)
    (hmk : ∀ t, (mkEmpty t).total_volume = 0) :
    ∀ (m : List (Int × AggEntry)) (t : TradeData),
      sumVolume (updateTrades step mkEmpty m t) = sumVolume m + t.quantity := by
  intro m t
  induction m with
  | nil => simp [updateTrades, sumVolume, hstep, hmk]
  | cons pa rest ih =>
    obtain ⟨p, a⟩ := pa
    by_cases h : p = t.price
    · simp [updateTrades, h, sumVolume_cons, hstep]
      omega
    · simp [updateTrades, h, sumVolume_cons, ih]
      omega

theorem sumVolume_foldl
    (step : AggEntry → TradeData → AggEntry)
    (mkEmpty : TradeData → AggEntry)
    (hstep : ∀ a t, (step a t).total_volume = a.total_volume + t.quantity)
    (hmk : ∀ t, (mkEmpty t).total_volume = 0) :
    ∀ (buffer : List TradeData) (m : List (Int × AggEntry)),
      sumVolume (buffer.foldl (updateTrades step mkEmpty) m)
        = sumVolume m + sumQty buffer := by
  intro buffer
  induction buffer with
  | nil => simp [sumQty]
  | cons t rest ih =>
    intro m
    have h1 := sumVolume_updateTrades step mkEmpty hstep hmk m t
    simp only [List.foldl_cons, ih, h1, sumQty, List.map_cons, List.sum_cons]
    omega

/-- One `updateTrades` step preserves the per-entry balance
`buy_volume + sell_volume = total_volume`. -/
theorem balance_updateTrades
    (step : AggEntry → TradeData → AggEntry)
    (mkEmpty : TradeData → AggEntry)
    (hstep : ∀ a t, a.buy_volume + a.sell_volume = a.total_volume →
      (step a t).buy_volume + (step a t).sell_volume = (step a t).total_volume)
    (hmk : ∀ t, (mkEmpty t).buy_volume = 0 ∧ (mkEmpty t).sell_volume = 0 ∧
      (mkEmpty t).total_volume = 0) :
    ∀ (m : List (Int × AggEntry)) (t : TradeData),
      (∀ e ∈ m, e.2.buy_volume + e.2.sell_volume = e.2.total_volume) →
      ∀ e ∈ updateTrades step mkEmpty m t,
        e.2.buy_volume + e.2.sell_volume = e.2.total_volume := by
  intro m
  induction m with
  | nil =>
    intro t _ e he
    simp only [updateTrades, List.mem_singleton] at he
    subst he
    exact hstep _ t (by obtain ⟨h1, h2, h3⟩ := hmk t; omega)
  | cons pa restm ihm =>
    obtain ⟨p, a⟩ := pa
    intro t hm e he
    by_cases h : p = t.price
    · simp only [updateTrades, h, eq_self_iff_true, if_true, List.mem_cons] at he
      rcases he with he | he
      · subst he
        exact hstep a t (by simpa [h] using hm (p, a) (by simp))
      · exact hm e (List.mem_cons_of_mem _ (by simpa [h] using he))
    · simp only [updateTrades, if_neg h, List.mem_cons] at he
      rcases he with he | he
      · subst he; exact hm (p, a) (by simp)
      · exact ihm t (fun e' he' => hm e' (List.mem_cons_of_mem _ he')) e he

/-- The per-entry balance `buy_volume + sell_volume = total_volume` is
preserved through the grouping fold, for any per-tick update that adds
a tick's quantity to `total_volume` and splits exactly that quantity
between `buy_volume` and `sell_volume`. -/
theorem balance_foldl
    (step : AggEntry → TradeData → AggEntry)
    (mkEmpty : TradeData → AggEntry)
    (hstep : ∀ a t, a.buy_volume + a.sell_volume = a.total_volume →
      (step a t).buy_volume + (step a t).sell_volume = (step a t).total_volume)
    (hmk : ∀ t, (mkEmpty t).buy_volume = 0 ∧ (mkEmpty t).sell_volume = 0 ∧
      (mkEmpty t).total_volume = 0) :
    ∀ (buffer : List TradeData) (m : List (Int × AggEntry)),
      (∀ e ∈ m, e.2.buy_volume + e.2.sell_volume = e.2.total_volume) →
      ∀ e ∈ buffer.foldl (updateTrades step mkEmpty) m,
        e.2.buy_volume + e.2.sell_volume = e.2.total_volume := by
  intro buffer
  induction buffer with
  | nil => intro m hm; simpa using hm
  | cons t rest ih =>
    intro m hm
    simp only [List.foldl_cons]
    exact ih _ (balance_updateTrades step mkEmpty hstep hmk m t hm)

theorem addTick_v1_total (a : AggEntry) (t : TradeData) :
    (addTick_v1 a t).total_volume = a.total_volume + t.quantity := by
  cases t with
  | mk p q s ts => cases s <;> rfl

theorem addTick_v2_total (a : AggEntry) (t : TradeData) :
    (addTick_v2 a t).total_volume = a.total_volume + t.quantity := rfl

theorem addTick_v1_balance (a : AggEntry) (t : TradeData)
    (h : a.buy_volume + a.sell_volume = a.total_volume) :
    (addTick_v1 a t).buy_volume + (addTick_v1 a t).sell_volume
      = (addTick_v1 a t).total_volume := by
  cases t with
  | mk p q s ts => cases s <;> simp [addTick_v1] <;> omega

theorem addTick_v2_balance (a : AggEntry) (t : TradeData)
    (h : a.buy_volume + a.sell_volume = a.total_volume) :
    (addTick_v2 a t).buy_volume + (addTick_v2 a t).sell_volume
      = (addTick_v2 a t).total_volume := by
  have hq : t.quantity / 2 ≤ t.quantity := Nat.div_le_self _ _
  simp [addTick_v2]
  omega

/-- C1: for every aggregation flush that actually fires (in v1 and in
v2), the sum of `total_volume` over the emitted per-price records
equals the sum of the quantities of the ticks buffered in that window,
and every emitted record satisfies
`buy_volume + sell_volume = total_volume`. -/
theorem aggregate_flush_volume_conservation
    (now last : Int) (buffer : List TradeData)
    (out : List (Int × AggEntry)) :
    (aggregate_ticks_v1 now last buffer = some out →
      sumVolume out = sumQty buffer ∧
      ∀ e ∈ out, e.2.buy_volume + e.2.sell_volume = e.2.total_volume) ∧
    (aggregate_ticks_v2 now last buffer = some out →
      sumVolume out = sumQty buffer ∧
      ∀ e ∈ out, e.2.buy_volume + e.2.sell_volume = e.2.total_volume) := by
  constructor
  · intro h
    unfold aggregate_ticks_v1 at h
    by_cases hw : now - last < 100
    · simp [hw] at h
    · simp [hw] at h
      subst h
      refine ⟨?_, ?_⟩
      · have := sumVolume_foldl addTick_v1 (fun _ => ⟨0, 0, 0, 0, now⟩)
          addTick_v1_total (fun _ => rfl) buffer []
        simpa [aggregateTrades_v1, sumVolume] using this
      · exact balance_foldl addTick_v1 _
          (fun a t ha => addTick_v1_balance a t ha)
          (fun _ => ⟨rfl, rfl, rfl⟩) buffer [] (by simp)
  · intro h
    unfold aggregate_ticks_v2 at h
    by_cases hw : now - last < 100
    · simp [hw] at h
    · by_cases hb : buffer = []
      · simp [hw, hb] at h
      · simp [hw, hb] at h
        subst h
        refine ⟨?_, ?_⟩
        · have := sumVolume_foldl addTick_v2 (fun t => ⟨0, 0, 0, 0, t.timestamp⟩)
            addTick_v2_total (fun _ => rfl) buffer []
          simpa [aggregateTrades_v2, sumVolume] using this
        · exact balance_foldl addTick_v2 _
            (fun a t ha => addTick_v2_balance a t ha)
            (fun _ => ⟨rfl, rfl, rfl⟩) buffer [] (by simp)

/-- Witness for C1 at a concrete flush: two ticks at the same price
(a buy of 3 and an unknown of 4) flushed 100 ms after the previous
flush. -/
theorem aggregate_flush_volume_conservation_witness :
    sumVolume [((10 : Int), (⟨7, 3, 4, 2, 100⟩ : AggEntry))]
        = sumQty [⟨10, 3, Side.buy, 90⟩, ⟨10, 4, Side.unknown, 95⟩] ∧
      ∀ e ∈ [((10 : Int), (⟨7, 3, 4, 2, 100⟩ : AggEntry))],
        e.2.buy_volume + e.2.sell_volume = e.2.total_volume :=
  (aggregate_flush_volume_conservation 100 0
    [⟨10, 3, Side.buy, 90⟩, ⟨10, 4, Side.unknown, 95⟩]
    [((10 : Int), (⟨7, 3, 4, 2, 100⟩ : AggEntry))]).1 (by decide)

/-- C4 counterexample: in the v1 aggregation (`main.py:301-304`) a tick
with side `unknown` is NOT split 50/50 — the `else` branch books its
entire quantity as `sell_volume`.  A single unknown tick of quantity 4
flushed 100 ms after the previous flush yields `buy_volume = 0`,
`sell_volume = 4`, not the claimed `buy = 4 / 2 = 2`,
`sell = 4 - 4 / 2 = 2`. -/
theorem aggregate_unknown_split_counterexample :
    aggregate_ticks_v1 100 0 [⟨10, 4, Side.unknown, 95⟩]
        = some [((10 : Int), (⟨4, 0, 4, 1, 100⟩ : AggEntry))] ∧
      ¬ ((⟨4, 0, 4, 1, 100⟩ : AggEntry).buy_volume = 4 / 2 ∧
        (⟨4, 0, 4, 1, 100⟩ : AggEntry).sell_volume = 4 - 4 / 2) := by
  decide

/-- C4 amended: in the v2 aggregation (`main_v2.py:159-160`) every tick
— whatever its side, so in particular an unknown-side tick —
contributes `quantity / 2` to `buy_volume` (rounded down) and
`quantity - quantity / 2` to `sell_volume` (rounded up), and the two
contributions sum exactly to the tick's quantity; in the v1 aggregation
(`main.py:301-304`) a tick whose side is unknown contributes its entire
quantity to `sell_volume` and nothing to `buy_volume`. -/
theorem aggregate_unknown_split_amended (a : AggEntry) (t : TradeData) :
    ((addTick_v2 a t).buy_volume = a.buy_volume + t.quantity / 2 ∧
      (addTick_v2 a t).sell_volume = a.sell_volume + (t.quantity - t.quantity / 2) ∧
      t.quantity / 2 + (t.quantity - t.quantity / 2) = t.quantity) ∧
    (t.side = Side.unknown →
      (addTick_v1 a t).buy_volume = a.buy_volume ∧
      (addTick_v1 a t).sell_volume = a.sell_volume + t.quantity) := by
  constructor
  · refine ⟨rfl, rfl, ?_⟩
    have := Nat.div_le_self t.quantity 2
    omega
  · intro hside
    cases t with
    | mk p q s ts =>
      simp only at hside
      subst hside
      exact ⟨rfl, rfl⟩

/-- Witness for the amended C4 at a concrete unknown-side tick of
quantity 5. -/
theorem aggregate_unknown_split_amended_witness :
    ((addTick_v2 ⟨0, 0, 0, 0, 0⟩ ⟨10, 5, Side.unknown, 95⟩).buy_volume
        = (0 : Nat) + 5 / 2 ∧
      (addTick_v2 ⟨0, 0, 0, 0, 0⟩ ⟨10, 5, Side.unknown, 95⟩).sell_volume
        = (0 : Nat) + (5 - 5 / 2) ∧
      (5 : Nat) / 2 + (5 - 5 / 2) = 5) ∧
    ((⟨10, 5, Side.unknown, 95⟩ : TradeData).side = Side.unknown →
      (addTick_v1 ⟨0, 0, 0, 0, 0⟩ ⟨10, 5, Side.unknown, 95⟩).buy_volume = 0 ∧
      (addTick_v1 ⟨0, 0, 0, 0, 0⟩ ⟨10, 5, Side.unknown, 95⟩).sell_volume
        = (0 : Nat) + 5) :=
  aggregate_unknown_split_amended ⟨0, 0, 0, 0, 0⟩ ⟨10, 5, Side.unknown, 95⟩

/-! ## Upstream feed client: reconnect policy (`main.py:95-167`) -/

/-- The mutable fields of `DhanWebSocketClient` that the reconnect
policy touches (`main.py:98-102`). -/
structure DhanClient where
  connected : Bool
  reconnect_attempts : Nat
  max_reconnect_attempts : Nat
deriving DecidableEq, Repr

/-- `DhanWebSocketClient.__init__` (`main.py:98-102`). -/
def initDhanClient : DhanClient :=
  { connected := false, reconnect_attempts := 0, max_reconnect_attempts := 5 }

/-- Outcome of one `handle_reconnect` call: either a retry is scheduled
after `wait_time` time units, or the max-attempts branch logs the fatal
`Max reconnection attempts reached` error and schedules nothing. -/
inductive ReconnectAction where
  | retry (wait_time : Nat) (next : DhanClient)
  | maxAttemptsReached (next : DhanClient)
deriving DecidableEq, Repr

/-- `DhanWebSocketClient.handle_reconnect` (`main.py:158-167`): when
`reconnect_attempts < max_reconnect_attempts` the counter is
incremented, the client sleeps `min(2 ** reconnect_attempts, 30)`
seconds and `connect()` is retried; otherwise the fatal error is logged
and no further attempt is made. -/
def handle_reconnect (s : DhanClient) : ReconnectAction :=
  if s.reconnect_attempts < s.max_reconnect_attempts then
    let s' := { s with reconnect_attempts := s.reconnect_attempts + 1 }
    ReconnectAction.retry (min (2 ^ s'.reconnect_attempts) 30) s'
  else
    ReconnectAction.maxAttemptsReached s

/-- The delays of the successive reconnect attempts produced by a run
of `k` consecutive connect failures: each failure calls
`handle_reconnect`, which either schedules the next attempt (whose
failure recurses) or gives up. -/
def reconnectDelays : Nat → DhanClient → List Nat
  | 0, _ => []
  | k + 1, s =>
    match handle_reconnect s with
    | ReconnectAction.retry w s' => w :: reconnectDelays k s'
    | ReconnectAction.maxAttemptsReached _ => []

/-- C2: for every reconnect attempt `n` with `1 ≤ n ≤ 5`, the delay
before attempt `n` is `min(2^n, 30)` time units (`handle_reconnect`
increments the counter to `n` and sleeps `min(2**n, 30)`); once the
counter has reached 5, `handle_reconnect` makes no further attempt and
reports the fatal error; and a run of arbitrarily many consecutive
failures from a fresh client produces exactly the five delays
`[2, 4, 8, 16, 30]`. -/
theorem reconnect_backoff_policy (n : Nat) (h1 : 1 ≤ n) (h5 : n ≤ 5) :
    handle_reconnect
        { connected := false, reconnect_attempts := n - 1,
          max_reconnect_attempts := 5 }
      = ReconnectAction.retry (min (2 ^ n) 30)
          { connected := false, reconnect_attempts := n,
            max_reconnect_attempts := 5 } ∧
    handle_reconnect
        { connected := false, reconnect_attempts := 5,
          max_reconnect_attempts := 5 }
      = ReconnectAction.maxAttemptsReached
          { connected := false, reconnect_attempts := 5,
            max_reconnect_attempts := 5 } ∧
    ∀ k, 5 ≤ k → reconnectDelays k initDhanClient = [2, 4, 8, 16, 30] := by
  refine ⟨?_, by decide, ?_⟩
  · interval_cases n <;> decide
  · intro k hk
    obtain ⟨m, rfl⟩ : ∃ m, k = m + 5 := ⟨k - 5, by omega⟩
    have h5s : ∀ j, reconnectDelays j
        { connected := false, reconnect_attempts := 5,
          max_reconnect_attempts := 5 } = [] := by
      intro j
      cases j with
      | zero => rfl
      | succ j => simp [reconnectDelays, handle_reconnect]
    have e1 : reconnectDelays (m + 5) initDhanClient
        = 2 :: reconnectDelays (m + 4)
            { connected := false, reconnect_attempts := 1,
              max_reconnect_attempts := 5 } := rfl
    have e2 : reconnectDelays (m + 4)
        { connected := false, reconnect_attempts := 1,
          max_reconnect_attempts := 5 }
        = 4 :: reconnectDelays (m + 3)
            { connected := false, reconnect_attempts := 2,
              max_reconnect_attempts := 5 } := rfl
    have e3 : reconnectDelays (m + 3)
        { connected := false, reconnect_attempts := 2,
          max_reconnect_attempts := 5 }
        = 8 :: reconnectDelays (m + 2)
            { connected := false, reconnect_attempts := 3,
              max_reconnect_attempts := 5 } := rfl
    have e4 : reconnectDelays (m + 2)
        { connected := false, reconnect_attempts := 3,
          max_reconnect_attempts := 5 }
        = 16 :: reconnectDelays (m + 1)
            { connected := false, reconnect_attempts := 4,
              max_reconnect_attempts := 5 } := rfl
    have e5 : reconnectDelays (m + 1)
        { connected := false, reconnect_attempts := 4,
          max_reconnect_attempts := 5 }
        = 30 :: reconnectDelays m
            { connected := false, reconnect_attempts := 5,
              max_reconnect_attempts := 5 } := rfl
    rw [e1, e2, e3, e4, e5, h5s m]

/-- Witness for C2 at `n = 5`: the delay before the fifth attempt is
`min(2^5, 30) = 30`, and ten consecutive failures still produce only
the five delays. -/
theorem reconnect_backoff_policy_witness :
    handle_reconnect
        { connected := false, reconnect_attempts := 4,
          max_reconnect_attempts := 5 }
      = ReconnectAction.retry (min (2 ^ 5) 30)
          { connected := false, reconnect_attempts := 5,
            max_reconnect_attempts := 5 } ∧
    handle_reconnect
        { connected := false, reconnect_attempts := 5,
          max_reconnect_attempts := 5 }
      = ReconnectAction.maxAttemptsReached
          { connected := false, reconnect_attempts := 5,
            max_reconnect_attempts := 5 } ∧
    ∀ k, 5 ≤ k → reconnectDelays k initDhanClient = [2, 4, 8, 16, 30] :=
  reconnect_backoff_policy 5 (by decide) (by decide)

/-! ## Feed connection state machine (C9)

The spec's `FeedConnectionState` machine
(`Disconnected -[connect]-> Connecting -[handshake ok]-> Subscribed
-[subscribe sent]-> Listening`) mapped onto the code paths of
`DhanWebSocketClient`: the `Subscribed` state is reached when
`websockets.connect` returns (`main.py:114-121`), which is exactly
where `connected = True` and `reconnect_attempts = 0` are assigned. -/

inductive FeedState where
  | Disconnected
  | Connecting
  | Subscribed
  | Listening
deriving DecidableEq, Repr

structure FeedClient where
  state : FeedState
  reconnect_attempts : Nat
deriving DecidableEq, Repr

/-- The events of the connect/reconnect cycle:
* `startConnect` — `connect()` begins opening the transport
  (`main.py:104-119`);
* `connectOk` — `websockets.connect` returned: `connected = True`,
  `reconnect_attempts = 0` (`main.py:120-121`), i.e. `Subscribed` is
  reached;
* `connectFail` — the `except` branch: `connected = False`
  (`main.py:127-129`);
* `scheduleRetry` — `handle_reconnect` with budget left: counter
  incremented, a fresh `connect()` follows (`main.py:160-165`);
* `giveUp` — `handle_reconnect` with the budget exhausted
  (`main.py:166-167`);
* `subscribeSent` — `subscribe_market_depth` sent, the client now
  listens (`main.py:125,155`);
* `connClosed` — `listen()` caught `ConnectionClosed`:
  `connected = False` (`main.py:175-178`). -/
inductive FeedEvent where
  | startConnect
  | connectOk
  | connectFail
  | scheduleRetry
  | giveUp
  | subscribeSent
  | connClosed
deriving DecidableEq, Repr

/-- One transition of the connect/reconnect cycle. -/
def feedStep (s : FeedClient) (e : FeedEvent) : FeedClient :=
  match e with
  | FeedEvent.startConnect => { s with state := FeedState.Connecting }
  | FeedEvent.connectOk =>
    { state := FeedState.Subscribed, reconnect_attempts := 0 }
  | FeedEvent.connectFail => { s with state := FeedState.Disconnected }
  | FeedEvent.scheduleRetry =>
    { state := FeedState.Connecting,
      reconnect_attempts :=
        if s.reconnect_attempts < 5 then s.reconnect_attempts + 1
        else s.reconnect_attempts }
  | FeedEvent.giveUp => { s with state := FeedState.Disconnected }
  | FeedEvent.subscribeSent => { s with state := FeedState.Listening }
  | FeedEvent.connClosed => { s with state := FeedState.Disconnected }

/-- C9: the reconnect-attempt counter is reset to 0 exactly on the
transition that reaches `Subscribed` (a successful
`websockets.connect`, `main.py:120-121`), and at no other point: any
transition that lowers the counter is the `connectOk` transition, ends
in `Subscribed`, and sets the counter to 0; conversely `connectOk`
always resets the counter; and every other event leaves the counter
unchanged or increments it. -/
theorem reconnect_counter_reset_only_on_subscribed
    (s : FeedClient) (e : FeedEvent) :
    ((feedStep s e).reconnect_attempts < s.reconnect_attempts →
      e = FeedEvent.connectOk ∧
      (feedStep s e).state = FeedState.Subscribed ∧
      (feedStep s e).reconnect_attempts = 0) ∧
    ((feedStep s FeedEvent.connectOk).reconnect_attempts = 0 ∧
      (feedStep s FeedEvent.connectOk).state = FeedState.Subscribed) ∧
    (e ≠ FeedEvent.connectOk →
      s.reconnect_attempts ≤ (feedStep s e).reconnect_attempts) := by
  refine ⟨?_, ⟨rfl, rfl⟩, ?_⟩
  · intro h
    cases e
    case connectOk => exact ⟨rfl, rfl, rfl⟩
    all_goals
      exfalso
      simp only [feedStep] at h
      first
        | omega
        | (split at h <;> omega)
  · intro hne
    cases e
    case connectOk => exact absurd rfl hne
    all_goals
      simp only [feedStep]
      first
        | omega
        | (split <;> omega)

/-- Witness for C9: from `Connecting` with 3 failed attempts on the
books, a successful connect drops the counter to 0 and reaches
`Subscribed`. -/
theorem reconnect_counter_reset_only_on_subscribed_witness :
    (FeedEvent.connectOk = FeedEvent.connectOk ∧
      (feedStep ⟨FeedState.Connecting, 3⟩ FeedEvent.connectOk).state
        = FeedState.Subscribed ∧
      (feedStep ⟨FeedState.Connecting, 3⟩
        FeedEvent.connectOk).reconnect_attempts = 0) :=
  (reconnect_counter_reset_only_on_subscribed
    ⟨FeedState.Connecting, 3⟩ FeedEvent.connectOk).1 (by decide)

/-! ## Broadcast fan-out (C3)

`broadcast_to_clients` (`main.py:318-334`, identical in
`main_v2.py:72-87`).  Viewer sessions are identified by numbers; the
success of a send is an oracle `sendOk`.  The iteration order of the
Python set is the list order. -/

/-- The `for client in connected_clients` pass (`main.py:326-331`):
every client is sent the message in turn; clients whose send raised are
collected into `disconnected_clients`.  Returns (sends attempted in
order, failed clients in order).  Removal is NOT interleaved with the
pass. -/
def broadcastPass (sendOk : Nat → Bool) : List Nat → List Nat × List Nat
  | [] => ([], [])
  | c :: rest =>
    let acc := broadcastPass sendOk rest
    (c :: acc.1, if sendOk c then acc.2 else c :: acc.2)

/-- `broadcast_to_clients` (`main.py:318-334`): early return when no
client is connected; otherwise one full pass over the session set, then
`connected_clients -= disconnected_clients`.  Returns (sends attempted,
remaining session set). -/
def broadcast_to_clients (clients : List Nat) (sendOk : Nat → Bool) :
    List Nat × List Nat :=
  if clients.isEmpty then ([], clients)
  else
    let pass := broadcastPass sendOk clients
    (pass.1, clients.filter (fun c => !(pass.2.contains c)))

theorem broadcastPass_eq (sendOk : Nat → Bool) (clients : List Nat) :
    broadcastPass sendOk clients
      = (clients, clients.filter (fun c => !(sendOk c))) := by
  induction clients with
  | nil => rfl
  | cons c rest ih =>
    by_cases h : sendOk c <;>
      simp [broadcastPass, ih, List.filter_cons, h]

/-- C3: `broadcast_to_clients` attempts a send to every registered
session (the pass covers the whole set, independent of earlier
failures, so removal never happens mid-iteration), and afterwards
exactly the sessions whose send failed are removed: the remaining set
is the original set filtered to the sessions whose send succeeded.  In
particular, broadcasting to sessions `[1, 2, 3]` where only session 2's
send fails attempts all three sends and leaves exactly `[1, 3]`
registered. -/
theorem broadcast_prunes_exactly_failed
    (clients : List Nat) (sendOk : Nat → Bool) :
    (broadcast_to_clients clients sendOk).1 = clients ∧
    (broadcast_to_clients clients sendOk).2 = clients.filter sendOk ∧
    broadcast_to_clients [1, 2, 3] (fun c => !(c == 2))
      = ([1, 2, 3], [1, 3]) := by
  refine ⟨?_, ?_, by decide⟩
  · cases clients with
    | nil => rfl
    | cons c rest =>
      simp [broadcast_to_clients, broadcastPass_eq]
  · cases clients with
    | nil => rfl
    | cons c rest =>
      simp only [broadcast_to_clients, List.isEmpty_cons, Bool.false_eq_true,
        if_false, broadcastPass_eq]
      apply List.filter_congr
      intro x hx
      simp only [List.elem_eq_mem, List.mem_filter, decide_eq_true_eq]
      by_cases h : sendOk x <;> simp [h, hx]

/-! ## Feed message processing (C8)

`DhanWebSocketClient.process_message` (`main.py:182-204`) and the
`listen` loop (`main.py:169-180`). -/

/-- The `type` discriminator of a decoded feed envelope
(`main.py:188-199`). -/
inductive MsgType where
  | market_depth
  | tick
  | quote
  | error
  | other
deriving DecidableEq, Repr

/-- One inbound feed payload: either `json.loads` raises
`JSONDecodeError` (`malformed`) or it yields an envelope with a `type`
field. -/
inductive FeedMessage where
  | malformed
  | wellFormed (t : MsgType)
deriving DecidableEq, Repr

/-- The externally visible effect of processing one message. -/
inductive FeedEffect where
  | broadcastDepth
  | bufferTick
  | broadcastQuote
  | errorLogged
  | debugLogged
  | invalidJsonLogged
  | reconnectTriggered
deriving DecidableEq, Repr

/-- The `connected` flag consulted by the `listen` loop guard
(`main.py:171`). -/
structure ListenerState where
  connected : Bool
deriving DecidableEq, Repr

/-- `process_message` (`main.py:182-204`): a payload that fails JSON
decoding is logged and dropped (`main.py:201-202`) without touching
`connected`; a decoded envelope is dispatched on its `type`
(`main.py:190-199`). -/
def process_message (s : ListenerState) (m : FeedMessage) :
    ListenerState × FeedEffect :=
  match m with
  | FeedMessage.malformed => (s, FeedEffect.invalidJsonLogged)
  | FeedMessage.wellFormed t =>
    (s, match t with
      | MsgType.market_depth => FeedEffect.broadcastDepth
      | MsgType.tick => FeedEffect.bufferTick
      | MsgType.quote => FeedEffect.broadcastQuote
      | MsgType.error => FeedEffect.errorLogged
      | MsgType.other => FeedEffect.debugLogged)

/-- One item the transport hands the `listen` loop: a received payload,
or a `ConnectionClosed` error raised by `recv`. -/
inductive FeedInbound where
  | recv (m : FeedMessage)
  | closed
deriving DecidableEq, Repr

/-- The `listen` loop (`main.py:169-180`): while `connected`, receive
one item; `ConnectionClosed` clears `connected` and triggers the
reconnect policy (`main.py:175-178`), which ends the loop; any other
message is handed to `process_message`.  Returns the final state and
the effects in order. -/
def listen (s : ListenerState) :
    List FeedInbound → ListenerState × List FeedEffect
  | [] => (s, [])
  | i :: rest =>
    if s.connected then
      match i with
      | FeedInbound.closed =>
        let tail := listen ⟨false⟩ rest
        (tail.1, FeedEffect.reconnectTriggered :: tail.2)
      | FeedInbound.recv m =>
        let step := process_message s m
        let tail := listen step.1 rest
        (tail.1, step.2 :: tail.2)
    else (s, [])

/-- C8: a feed payload that is not decodable as JSON is dropped with a
log entry and nothing else: `process_message` leaves the state (in
particular `connected`) untouched, and the `listen` loop run on
`malformed :: rest` stays connected and processes `rest` exactly as it
would have without the malformed message, with only the extra log
effect prepended — so the next valid message is processed normally. -/
theorem malformed_message_dropped_not_fatal
    (s : ListenerState) (rest : List FeedInbound)
    (hconn : s.connected = true) :
    process_message s FeedMessage.malformed
        = (s, FeedEffect.invalidJsonLogged) ∧
    listen s (FeedInbound.recv FeedMessage.malformed :: rest)
        = ((listen s rest).1,
           FeedEffect.invalidJsonLogged :: (listen s rest).2) := by
  refine ⟨rfl, ?_⟩
  simp [listen, process_message, hconn]

/-- Witness for C8: after one malformed payload, a valid tick message
is still processed (the tick is buffered) and the client stays
connected. -/
theorem malformed_message_dropped_not_fatal_witness :
    process_message ⟨true⟩ FeedMessage.malformed
        = (⟨true⟩, FeedEffect.invalidJsonLogged) ∧
    listen ⟨true⟩ (FeedInbound.recv FeedMessage.malformed
        :: [FeedInbound.recv (FeedMessage.wellFormed MsgType.tick)])
        = ((listen ⟨true⟩
            [FeedInbound.recv (FeedMessage.wellFormed MsgType.tick)]).1,
           FeedEffect.invalidJsonLogged :: (listen ⟨true⟩
            [FeedInbound.recv (FeedMessage.wellFormed MsgType.tick)]).2) :=
  malformed_message_dropped_not_fatal ⟨true⟩
    [FeedInbound.recv (FeedMessage.wellFormed MsgType.tick)] rfl

/-! ## Symbol manager (`backend/symbol_manager.py`)

Strings are lists of characters; `str.upper()` is a character map.
The in-memory `symbols_cache` dict and the durable sqlite `symbols`
table are insertion-ordered association lists (`INSERT OR REPLACE`
keyed by symbol = update-in-place-or-append, same as a dict
assignment); the `symbol_requests` audit table is an append-only
list. The three network fetchers are oracles. -/

abbrev Str := List Char

/-- `str.upper()`. -/
def upper (s : Str) : Str := s.map Char.toUpper

/-- The per-symbol record kept in `symbols_cache`
(`symbol_manager.py:77-82`, `220-222`). -/
structure SymbolInfo where
  token : Str
  name : Str
  sector : Str
  market_cap : Str
deriving DecidableEq, Repr

/-- Keyed update-or-append: a Python dict assignment
`d[k] = v` and sqlite `INSERT OR REPLACE` both overwrite in place when
the key exists and append otherwise. -/
def dictUpsert : List (Str × SymbolInfo) → Str → SymbolInfo →
    List (Str × SymbolInfo)
  | [], k, v => [(k, v)]
  | (k', v') :: rest, k, v =>
    if k' = k then (k', v) :: rest
    else (k', v') :: dictUpsert rest k v

/-- Keyed lookup (`symbol in cache` / `cache[symbol]`). -/
def lookupDict : List (Str × SymbolInfo) → Str → Option SymbolInfo
  | [], _ => none
  | (k', v') :: rest, k => if k' = k then some v' else lookupDict rest k

/-- The state `SymbolManager` mutates during resolution: the in-memory
cache, the durable `symbols` table, and the append-only
`symbol_requests` audit table. -/
structure SymbolManagerState where
  symbols_cache : List (Str × SymbolInfo)
  symbols_table : List (Str × SymbolInfo)
  symbol_requests : List Str
deriving DecidableEq, Repr

/-- `SymbolManager._cache_symbol` (`symbol_manager.py:220-242`): store
in the in-memory cache and upsert into the durable `symbols` table. -/
def cache_symbol (s : SymbolManagerState) (sym : Str) (info : SymbolInfo) :
    SymbolManagerState :=
  { s with
    symbols_cache := dictUpsert s.symbols_cache sym info,
    symbols_table := dictUpsert s.symbols_table sym info }

/-- `SymbolManager._log_unknown_symbol` (`symbol_manager.py:244-255`):
`INSERT INTO symbol_requests` — append-only, touches no cache. -/
def log_unknown_symbol (s : SymbolManagerState) (sym : Str) :
    SymbolManagerState :=
  { s with symbol_requests := s.symbol_requests ++ [sym] }

/-- `SymbolManager._fetch_symbol_alternative`
(`symbol_manager.py:142-154`): the DhanHQ quote API first, the NSE API
as fallback. -/
def fetch_symbol_alternative (dhanhq_api nse_api : Str → Option SymbolInfo)
    (sym : Str) : Option SymbolInfo :=
  match dhanhq_api sym with
  | some info => some info
  | none => nse_api sym

/-- `SymbolManager.get_symbol_info` (`symbol_manager.py:89-111`):
uppercase the symbol; serve from the in-memory cache on a hit;
otherwise try `_fetch_symbol_from_api`, then
`_fetch_symbol_alternative`, caching on the first success; when
everything failed, log the unknown symbol and return `None`. -/
def get_symbol_info
    (api_fetch dhanhq_api nse_api : Str → Option SymbolInfo)
    (s : SymbolManagerState) (symbol : Str) :
    Option SymbolInfo × SymbolManagerState :=
  let sym := upper symbol
  match lookupDict s.symbols_cache sym with
  | some info => (some info, s)
  | none =>
    match api_fetch sym with
    | some info => (some info, cache_symbol s sym info)
    | none =>
      match fetch_symbol_alternative dhanhq_api nse_api sym with
      | some info => (some info, cache_symbol s sym info)
      | none => (none, log_unknown_symbol s sym)

/-- C5: when the in-memory cache misses and every network source
fails, `get_symbol_info` returns `None`, appends the symbol to the
append-only `symbol_requests` audit table, and leaves both the
in-memory cache and the durable `symbols` table untouched — so a
subsequent resolve of the same symbol consults the network sources
again (and succeeds as soon as one of them does). -/
theorem resolve_total_miss_logged_never_cached
    (api_fetch dhanhq_api nse_api : Str → Option SymbolInfo)
    (s : SymbolManagerState) (symbol : Str)
    (hcache : lookupDict s.symbols_cache (upper symbol) = none)
    (h1 : api_fetch (upper symbol) = none)
    (h2 : dhanhq_api (upper symbol) = none)
    (h3 : nse_api (upper symbol) = none) :
    (get_symbol_info api_fetch dhanhq_api nse_api s symbol).1 = none ∧
    (get_symbol_info api_fetch dhanhq_api nse_api s symbol).2.symbols_cache
      = s.symbols_cache ∧
    (get_symbol_info api_fetch dhanhq_api nse_api s symbol).2.symbols_table
      = s.symbols_table ∧
    (get_symbol_info api_fetch dhanhq_api nse_api s symbol).2.symbol_requests
      = s.symbol_requests ++ [upper symbol] ∧
    (∀ (f g h : Str → Option SymbolInfo) (info : SymbolInfo),
      f (upper symbol) = some info →
      (get_symbol_info f g h
        (get_symbol_info api_fetch dhanhq_api nse_api s symbol).2
        symbol).1 = some info) := by
  have hres : get_symbol_info api_fetch dhanhq_api nse_api s symbol
      = (none, log_unknown_symbol s (upper symbol)) := by
    simp [get_symbol_info, fetch_symbol_alternative, hcache, h1, h2, h3]
  refine ⟨by rw [hres], by rw [hres]; rfl, by rw [hres]; rfl,
    by rw [hres]; rfl, ?_⟩
  intro f g h info hf
  rw [hres]
  simp [get_symbol_info, log_unknown_symbol, hcache, hf]

/-- Witness for C5: a concrete resolver state with one cached symbol
`AB`, resolving the unknown symbol `zq` with all network sources
failing, then re-resolving once the primary source knows it. -/
theorem resolve_total_miss_logged_never_cached_witness :
    (get_symbol_info (fun _ => none) (fun _ => none) (fun _ => none)
      ⟨[(['A', 'B'], ⟨['1'], ['A', 'B'], [], []⟩)], [], []⟩
      ['z', 'q']).1 = none ∧
    (get_symbol_info (fun _ => none) (fun _ => none) (fun _ => none)
      ⟨[(['A', 'B'], ⟨['1'], ['A', 'B'], [], []⟩)], [], []⟩
      ['z', 'q']).2.symbols_cache
      = [(['A', 'B'], ⟨['1'], ['A', 'B'], [], []⟩)] ∧
    (get_symbol_info (fun _ => none) (fun _ => none) (fun _ => none)
      ⟨[(['A', 'B'], ⟨['1'], ['A', 'B'], [], []⟩)], [], []⟩
      ['z', 'q']).2.symbols_table = [] ∧
    (get_symbol_info (fun _ => none) (fun _ => none) (fun _ => none)
      ⟨[(['A', 'B'], ⟨['1'], ['A', 'B'], [], []⟩)], [], []⟩
      ['z', 'q']).2.symbol_requests = [] ++ [upper ['z', 'q']] ∧
    (∀ (f g h : Str → Option SymbolInfo) (info : SymbolInfo),
      f (upper ['z', 'q']) = some info →
      (get_symbol_info f g h
        (get_symbol_info (fun _ => none) (fun _ => none) (fun _ => none)
          ⟨[(['A', 'B'], ⟨['1'], ['A', 'B'], [], []⟩)], [], []⟩
          ['z', 'q']).2
        ['z', 'q']).1 = some info) :=
  resolve_total_miss_logged_never_cached
    (fun _ => none) (fun _ => none) (fun _ => none)
    ⟨[(['A', 'B'], ⟨['1'], ['A', 'B'], [], []⟩)], [], []⟩
    ['z', 'q'] (by decide) rfl rfl rfl

/-! ## Symbol search (`SymbolManager.search_symbols`,
`symbol_manager.py:257-282`) -/

/-- The result dict built for each matching cache entry
(`symbol_manager.py:267-273`). -/
structure SearchResult where
  symbol : Str
  token : Str
  name : Str
  sector : Str
  market_cap : Str
deriving DecidableEq, Repr

def mkSearchResult (p : Str × SymbolInfo) : SearchResult :=
  ⟨p.1, p.2.token, p.2.name, p.2.sector, p.2.market_cap⟩

/-- The match test of the cache scan (`symbol_manager.py:263-266`):
`query in symbol or query in name.upper() or query in sector.upper()`,
with `query` already uppercased.  Note the sector clause: the scan does
not only match symbol and display name. -/
def searchMatch (q : Str) (p : Str × SymbolInfo) : Bool :=
  decide (List.IsInfix q p.1)
    || decide (List.IsInfix q (upper p.2.name))
    || decide (List.IsInfix q (upper p.2.sector))

/-- The sort key of `results.sort` (`symbol_manager.py:276-280`):
0 for an exact symbol match, 1 when the query occurs in the symbol,
2 when it occurs in the uppercased name, 3 otherwise. -/
def rankOf (q : Str) (r : SearchResult) : Nat :=
  if q = r.symbol then 0
  else if List.IsInfix q r.symbol then 1
  else if List.IsInfix q (upper r.name) then 2
  else 3

/-- The list of result records before sorting
(`symbol_manager.py:260-273`): the in-memory cache filtered by the
match test, in cache iteration order. -/
def search_candidates (cache : List (Str × SymbolInfo)) (q : Str) :
    List SearchResult :=
  (cache.filter (searchMatch q)).map mkSearchResult

/-- `results.sort(key=...)` (`symbol_manager.py:276-280`).  Python's
sort is stable, and a stable sort on a key taking values in
`{0, 1, 2, 3}` is exactly the concatenation of the four equal-key
buckets, each in input order. -/
def sortByRank (q : Str) (rs : List SearchResult) : List SearchResult :=
  rs.filter (fun r => rankOf q r == 0)
    ++ rs.filter (fun r => rankOf q r == 1)
    ++ rs.filter (fun r => rankOf q r == 2)
    ++ rs.filter (fun r => rankOf q r == 3)

/-- `SymbolManager.search_symbols` (`symbol_manager.py:257-282`):
uppercase the query, scan the in-memory cache only, sort by relevance,
truncate to `limit`. -/
def search_symbols (cache : List (Str × SymbolInfo)) (query : Str)
    (limit : Nat) : List SearchResult :=
  (sortByRank (upper query) (search_candidates cache (upper query))).take
    limit

/-- The websocket `search_symbols` command handler (`main.py:450-458`):
`query` defaults to the empty string and `limit` to 20 when the fields
are absent. -/
def handle_search_symbols (cache : List (Str × SymbolInfo))
    (query : Option Str) (limit : Option Nat) : List SearchResult :=
  search_symbols cache (query.getD []) (limit.getD 20)

theorem rankOf_le_three (q : Str) (r : SearchResult) : rankOf q r ≤ 3 := by
  unfold rankOf
  split
  · omega
  · split
    · omega
    · split <;> omega

/-- `sortByRank` permutes its input: no result is lost or duplicated by
the sort. -/
theorem sortByRank_perm (q : Str) (rs : List SearchResult) :
    List.Perm (sortByRank q rs) rs := by
  induction rs with
  | nil => rfl
  | cons r rest ih =>
    have hb := rankOf_le_three q r
    have hcases : rankOf q r = 0 ∨ rankOf q r = 1 ∨ rankOf q r = 2 ∨
        rankOf q r = 3 := by omega
    unfold sortByRank
    simp only [List.filter_cons]
    rcases hcases with hr | hr | hr | hr
    · rw [if_pos (by simp [hr]), if_neg (by simp [hr]),
        if_neg (by simp [hr]), if_neg (by simp [hr])]
      exact ih.cons r
    · rw [if_neg (by simp [hr]), if_pos (by simp [hr]),
        if_neg (by simp [hr]), if_neg (by simp [hr])]
      exact ((List.perm_middle.append_right _).append_right _).trans
        (ih.cons r)
    · rw [if_neg (by simp [hr]), if_neg (by simp [hr]),
        if_pos (by simp [hr]), if_neg (by simp [hr])]
      exact (List.perm_middle.append_right _).trans (ih.cons r)
    · rw [if_neg (by simp [hr]), if_neg (by simp [hr]),
        if_neg (by simp [hr]), if_pos (by simp [hr])]
      exact List.perm_middle.trans (ih.cons r)

theorem mem_rank_bucket (q : Str) (rs : List SearchResult) (j : Nat)
    (a : SearchResult)
    (ha : a ∈ rs.filter (fun r => rankOf q r == j)) : rankOf q a = j := by
  have := (List.mem_filter.mp ha).2
  simpa using this

/-- The bucket concatenation is sorted by the sort key. -/
theorem sortByRank_sorted (q : Str) (rs : List SearchResult) :
    List.Sorted (fun a b => rankOf q a ≤ rankOf q b) (sortByRank q rs) := by
  have hbkt : ∀ (j : Nat),
      List.Pairwise (fun a b => rankOf q a ≤ rankOf q b)
        (rs.filter (fun r => rankOf q r == j)) := by
    intro j
    apply List.pairwise_of_forall_mem_list
    intro a ha b hb
    rw [mem_rank_bucket q rs j a ha, mem_rank_bucket q rs j b hb]
  unfold sortByRank List.Sorted
  rw [List.pairwise_append, List.pairwise_append, List.pairwise_append]
  refine ⟨⟨⟨hbkt 0, hbkt 1, ?_⟩, hbkt 2, ?_⟩, hbkt 3, ?_⟩
  · intro a ha b hb
    rw [mem_rank_bucket q rs 0 a ha, mem_rank_bucket q rs 1 b hb]
    omega
  · intro a ha b hb
    rw [mem_rank_bucket q rs 2 b hb]
    rcases List.mem_append.mp ha with h | h
    · rw [mem_rank_bucket q rs 0 a h]; omega
    · rw [mem_rank_bucket q rs 1 a h]; omega
  · intro a ha b hb
    rw [mem_rank_bucket q rs 3 b hb]
    rcases List.mem_append.mp ha with h | h
    · rcases List.mem_append.mp h with h' | h'
      · rw [mem_rank_bucket q rs 0 a h']; omega
      · rw [mem_rank_bucket q rs 1 a h']; omega
    · rw [mem_rank_bucket q rs 2 a h]; omega

/-- The sort is stable: two results of equal rank keep their relative
order from the pre-sort candidate list. -/
theorem sortByRank_stable (q : Str) (rs : List SearchResult)
    (a b : SearchResult) (hrank : rankOf q a = rankOf q b)
    (hsub : List.Sublist [a, b] rs) :
    List.Sublist [a, b] (sortByRank q rs) := by
  have hb3 := rankOf_le_three q a
  have hcases : rankOf q a = 0 ∨ rankOf q a = 1 ∨ rankOf q a = 2 ∨
      rankOf q a = 3 := by omega
  have hpair : ∀ (j : Nat), rankOf q a = j →
      List.Sublist [a, b] (rs.filter (fun r => rankOf q r == j)) := by
    intro j hj
    have h1 : List.Sublist ([a, b].filter (fun r => rankOf q r == j))
        (rs.filter (fun r => rankOf q r == j)) := hsub.filter _
    have h2 : [a, b].filter (fun r => rankOf q r == j) = [a, b] := by
      simp [List.filter_cons, hj, ← hrank]
    rwa [h2] at h1
  unfold sortByRank
  rcases hcases with hj | hj | hj | hj
  · exact ((((hpair 0 hj).trans (List.sublist_append_left _ _)).trans
      (List.sublist_append_left _ _)).trans (List.sublist_append_left _ _))
  · exact (((hpair 1 hj).trans (List.sublist_append_right _ _)).trans
      (List.sublist_append_left _ _)).trans (List.sublist_append_left _ _)
  · exact ((hpair 2 hj).trans (List.sublist_append_right _ _)).trans
      (List.sublist_append_left _ _)
  · exact (hpair 3 hj).trans (List.sublist_append_right _ _)

/-- C6 counterexample, in two parts.

Match set: `search_symbols` does not match only against symbol and
display name — the scan (`symbol_manager.py:264-266`) also matches the
sector.  A cache entry with symbol `XJN`, name `FOO` and sector
`TECHNOLOGY` is returned for the query `TECH` although `TECH` occurs in
neither its symbol nor its name.

Tie-break: ties are not broken by keeping the higher `last_updated`
first.  Start from a cache holding only `AB` (loaded at startup) and
resolve the unknown symbol `ac` through a succeeding network source:
`_cache_symbol` appends `AC` at the cache tail
(`symbol_manager.py:220-222`) while writing `datetime.now()` — the
strictly highest `last_updated` of any row — to its record
(`symbol_manager.py:236`).  A search for `a` then gives both entries
the same rank 1, yet returns the just-updated `AC` after the older
`AB`: the sort (`symbol_manager.py:276-280`) never consults
`last_updated` (the in-memory rows do not even carry it) and simply
keeps cache iteration order among equal keys. -/
theorem search_sector_match_counterexample :
    search_symbols
        [(['X', 'J', 'N'],
          (⟨['9'], ['F', 'O', 'O'],
            ['T', 'E', 'C', 'H', 'N', 'O', 'L', 'O', 'G', 'Y'],
            []⟩ : SymbolInfo))]
        ['T', 'E', 'C', 'H'] 5
      = [⟨['X', 'J', 'N'], ['9'], ['F', 'O', 'O'],
          ['T', 'E', 'C', 'H', 'N', 'O', 'L', 'O', 'G', 'Y'], []⟩] ∧
    ¬ List.IsInfix (upper ['T', 'E', 'C', 'H']) ['X', 'J', 'N'] ∧
    ¬ List.IsInfix (upper ['T', 'E', 'C', 'H'])
        (upper ['F', 'O', 'O']) ∧
    (get_symbol_info
        (fun sym => if sym = ['A', 'C']
          then some (⟨['2'], ['N', 'C'], [], []⟩ : SymbolInfo) else none)
        (fun _ => none) (fun _ => none)
        ⟨[(['A', 'B'], (⟨['1'], ['N', 'B'], [], []⟩ : SymbolInfo))],
          [(['A', 'B'], (⟨['1'], ['N', 'B'], [], []⟩ : SymbolInfo))], []⟩
        ['a', 'c']).2.symbols_cache
      = [(['A', 'B'], (⟨['1'], ['N', 'B'], [], []⟩ : SymbolInfo)),
         (['A', 'C'], (⟨['2'], ['N', 'C'], [], []⟩ : SymbolInfo))] ∧
    rankOf (upper ['a']) (⟨['A', 'B'], ['1'], ['N', 'B'], [], []⟩)
      = rankOf (upper ['a']) (⟨['A', 'C'], ['2'], ['N', 'C'], [], []⟩) ∧
    search_symbols
        [(['A', 'B'], (⟨['1'], ['N', 'B'], [], []⟩ : SymbolInfo)),
         (['A', 'C'], (⟨['2'], ['N', 'C'], [], []⟩ : SymbolInfo))]
        ['a'] 5
      = [⟨['A', 'B'], ['1'], ['N', 'B'], [], []⟩,
         ⟨['A', 'C'], ['2'], ['N', 'C'], [], []⟩] := by
  decide

/-- C6 amended: `search_symbols(query, limit)` matches the uppercased
query against symbol, uppercased display name and uppercased sector,
across the in-memory cache only; the sort permutes exactly the matching
rows, orders them by rank — exact symbol match (0) < symbol contains
(1) < name contains (2) < other, e.g. sector-only (3) — stably: equal
ranks keep the cache's iteration order, not a `last_updated` order (the
in-memory rows carry no `last_updated` field; the startup load happens
to present them most recently updated first, but a symbol cached after
startup is appended at the tail despite having the newest
`last_updated`, as the counterexample shows); the result is truncated
to `limit`.  In particular an exact symbol match (`TCS`) ranks before a
name-only match (`SOME TCS CO`) even when the latter sits earlier in
the cache. -/
theorem search_symbols_ranked (cache : List (Str × SymbolInfo))
    (query : Str) (limit : Nat) :
    List.Perm
        (sortByRank (upper query) (search_candidates cache (upper query)))
        (search_candidates cache (upper query)) ∧
    (∀ r ∈ search_symbols cache query limit,
      ∃ p, p ∈ cache ∧ searchMatch (upper query) p = true ∧
        r = mkSearchResult p) ∧
    List.Sorted (fun a b => rankOf (upper query) a ≤ rankOf (upper query) b)
        (search_symbols cache query limit) ∧
    (search_symbols cache query limit).length ≤ limit ∧
    (∀ a b, rankOf (upper query) a = rankOf (upper query) b →
      List.Sublist [a, b] (search_candidates cache (upper query)) →
      List.Sublist [a, b]
        (sortByRank (upper query) (search_candidates cache (upper query)))) ∧
    search_symbols
        [(['X', 'J', 'N'],
          (⟨['9', '9'], ['S', 'O', 'M', 'E', ' ', 'T', 'C', 'S', ' ', 'C', 'O'],
            [], []⟩ : SymbolInfo)),
         (['T', 'C', 'S'],
          (⟨['2', '9', '5', '3', '2', '1', '7'], ['T', 'C', 'S'],
            ['I', 'T'], []⟩ : SymbolInfo))]
        ['T', 'C', 'S'] 5
      = [⟨['T', 'C', 'S'], ['2', '9', '5', '3', '2', '1', '7'],
          ['T', 'C', 'S'], ['I', 'T'], []⟩,
         ⟨['X', 'J', 'N'], ['9', '9'],
          ['S', 'O', 'M', 'E', ' ', 'T', 'C', 'S', ' ', 'C', 'O'], [], []⟩] := by
  refine ⟨sortByRank_perm _ _, ?_, ?_, ?_, ?_, by decide⟩
  · intro r hr
    have h1 : r ∈ sortByRank (upper query)
        (search_candidates cache (upper query)) :=
      List.take_subset _ _ hr
    have h2 : r ∈ search_candidates cache (upper query) :=
      (sortByRank_perm _ _).mem_iff.mp h1
    unfold search_candidates at h2
    rcases List.mem_map.mp h2 with ⟨p, hp, rfl⟩
    exact ⟨p, (List.mem_filter.mp hp).1, (List.mem_filter.mp hp).2, rfl⟩
  · exact List.Pairwise.sublist (List.take_sublist _ _)
      (sortByRank_sorted (upper query) (search_candidates cache (upper query)))
  · exact List.length_take_le _ _
  · intro a b h1 h2
    exact sortByRank_stable (upper query) _ a b h1 h2

/-- Witness for C6 at a concrete cache: two equal-rank results (both
symbol-contains matches for the lowercase query `a`) keep their cache
order through the sort, and a concrete returned result arises from a
matching cache row. -/
theorem search_symbols_ranked_witness :
    List.Sublist
        [⟨['A', 'B'], ['1'], ['N', 'B'], [], []⟩,
         ⟨['A', 'C'], ['2'], ['N', 'C'], [], []⟩]
        (sortByRank (upper ['a'])
          (search_candidates
            [(['A', 'B'], (⟨['1'], ['N', 'B'], [], []⟩ : SymbolInfo)),
             (['A', 'C'], (⟨['2'], ['N', 'C'], [], []⟩ : SymbolInfo))]
            (upper ['a']))) :=
  (search_symbols_ranked
      [(['A', 'B'], (⟨['1'], ['N', 'B'], [], []⟩ : SymbolInfo)),
       (['A', 'C'], (⟨['2'], ['N', 'C'], [], []⟩ : SymbolInfo))]
      ['a'] 5).2.2.2.2.1
    ⟨['A', 'B'], ['1'], ['N', 'B'], [], []⟩
    ⟨['A', 'C'], ['2'], ['N', 'C'], [], []⟩
    (by decide) (by decide)

/-- C10: the empty query is an infix of every string, so
`search_symbols` with the empty query matches every cached row (each
gets rank 1 as a symbol-contains, non-exact match, cache symbols being
nonempty) and the stable sort returns the whole cache in order,
truncated to `limit` — not an empty result; and the websocket
`search_symbols` handler substitutes exactly this empty query (and
limit 20) when the fields are absent. -/
theorem empty_query_matches_whole_cache (cache : List (Str × SymbolInfo))
    (limit : Nat) (hsym : ∀ p ∈ cache, p.1 ≠ ([] : Str)) :
    search_symbols cache [] limit = (cache.map mkSearchResult).take limit ∧
    handle_search_symbols cache none none = search_symbols cache [] 20 := by
  refine ⟨?_, rfl⟩
  unfold search_symbols
  have hq : upper [] = ([] : Str) := rfl
  rw [hq]
  have hmatch : cache.filter (searchMatch []) = cache := by
    apply List.filter_eq_self.mpr
    intro p _
    simp [searchMatch, List.nil_infix]
  have hcand : search_candidates cache [] = cache.map mkSearchResult := by
    unfold search_candidates
    rw [hmatch]
  rw [hcand]
  have hrank : ∀ r ∈ cache.map mkSearchResult, rankOf [] r = 1 := by
    intro r hr
    rcases List.mem_map.mp hr with ⟨p, hp, rfl⟩
    unfold rankOf
    rw [if_neg, if_pos (List.nil_infix)]
    intro h
    exact hsym p hp h.symm
  have hsort : sortByRank [] (cache.map mkSearchResult)
      = cache.map mkSearchResult := by
    unfold sortByRank
    rw [List.filter_eq_nil_iff.mpr
        (fun a ha => by simp [hrank a ha]),
      List.filter_eq_self.mpr (fun a ha => by simp [hrank a ha]),
      List.filter_eq_nil_iff.mpr (fun a ha => by simp [hrank a ha]),
      List.filter_eq_nil_iff.mpr (fun a ha => by simp [hrank a ha])]
    simp
  rw [hsort]

/-- Witness for C10 at a concrete two-entry cache with limit 1. -/
theorem empty_query_matches_whole_cache_witness :
    search_symbols
        [(['A', 'B'], (⟨['1'], ['N', 'B'], [], []⟩ : SymbolInfo)),
         (['C'], (⟨['2'], ['N', 'C'], [], []⟩ : SymbolInfo))] [] 1
      = (([(['A', 'B'], (⟨['1'], ['N', 'B'], [], []⟩ : SymbolInfo)),
          (['C'], (⟨['2'], ['N', 'C'], [], []⟩ : SymbolInfo))].map
            mkSearchResult).take 1) ∧
    handle_search_symbols
        [(['A', 'B'], (⟨['1'], ['N', 'B'], [], []⟩ : SymbolInfo)),
         (['C'], (⟨['2'], ['N', 'C'], [], []⟩ : SymbolInfo))] none none
      = search_symbols
          [(['A', 'B'], (⟨['1'], ['N', 'B'], [], []⟩ : SymbolInfo)),
           (['C'], (⟨['2'], ['N', 'C'], [], []⟩ : SymbolInfo))] [] 20 :=
  empty_query_matches_whole_cache
    [(['A', 'B'], (⟨['1'], ['N', 'B'], [], []⟩ : SymbolInfo)),
     (['C'], (⟨['2'], ['N', 'C'], [], []⟩ : SymbolInfo))] 1 (by decide)

/-! ## Viewer command handling (C7)

The per-message command dispatch of the websocket endpoint
(`main.py:360-458`; the `change_timeframe` branch of
`main_v2.py:276-281` is identical).  `is_market_hours` is sampled once
at connect time (`main.py:344`); symbol resolution, the
`DEFAULT_SYMBOLS` fallback and the historical-data fetch are oracles —
`hist s tf = true` models `get_off_market_data` returning a payload
without an `error` key. -/

/-- The default timeframe string `"1min"` (`main.py:444`). -/
def tf1min : Str := ['1', 'm', 'i', 'n']

/-- The commands a viewer can send (`main.py:367,375,442,450`). -/
inductive ClientCommand where
  | ping
  | change_symbol (symbol : Str)
  | change_timeframe (timeframe : Str)
  | search_symbols (query : Str) (limit : Nat)
deriving DecidableEq, Repr

/-- The replies the endpoint can send for a command. -/
inductive ServerReply where
  | pong
  | historical (symbol timeframe : Str)
  | symbol_changed (symbol : Str) (from_default : Bool) (live : Bool)
  | symbol_error (symbol : Str)
  | symbol_search_results (query : Str) (results : List SearchResult)
deriving DecidableEq, Repr

/-- One iteration of the command loop (`main.py:360-458`): `ping` is
answered with `pong`; `change_symbol` resolves dynamically, falls back
to `DEFAULT_SYMBOLS`, and replies `symbol_changed` (preceded in
historical mode by the historical payload when the fetch succeeds) or
`symbol_error`; `change_timeframe` refetches historical data only when
the market is closed (`main.py:442-447`) — in live mode the branch body
is skipped entirely and nothing is sent, and a failed fetch also sends
nothing; `search_symbols` always replies with the result list. -/
def handle_client_message (mh : Bool) (cur : Str)
    (resolve defaults : Str → Option SymbolInfo)
    (hist : Str → Str → Bool) (cache : List (Str × SymbolInfo)) :
    ClientCommand → List ServerReply
  | ClientCommand.ping => [ServerReply.pong]
  | ClientCommand.change_symbol sym =>
    match resolve sym with
    | some _ =>
      if mh then [ServerReply.symbol_changed sym false true]
      else
        (if hist sym tf1min then [ServerReply.historical sym tf1min]
         else [])
          ++ [ServerReply.symbol_changed sym false false]
    | none =>
      match defaults sym with
      | some _ =>
        if mh then [ServerReply.symbol_changed sym true true]
        else
          (if hist sym tf1min then [ServerReply.historical sym tf1min]
           else [])
            ++ [ServerReply.symbol_changed sym true false]
      | none => [ServerReply.symbol_error sym]
  | ClientCommand.change_timeframe tf =>
    if mh then []
    else if hist cur tf then [ServerReply.historical cur tf] else []
  | ClientCommand.search_symbols q lim =>
    [ServerReply.symbol_search_results q (search_symbols cache q lim)]

/-- C7 counterexample: a `change_timeframe` command sent while in live
mode (`is_market_hours = true`) receives no reply at all — the claim
that every command is acknowledged, including `change_timeframe` in
live mode, fails on `main.py:442-447` (and identically on
`main_v2.py:276-281`): the branch body is guarded by
`if not is_market_hours`, and there is no `else`. -/
theorem change_timeframe_live_silent_counterexample :
    handle_client_message true ['T', 'C', 'S'] (fun _ => none)
        (fun _ => none) (fun _ _ => true) []
        (ClientCommand.change_timeframe ['5', 'm', 'i', 'n'])
      = [] := rfl

/-- C7 amended: `ping`, `change_symbol` and `search_symbols` always
receive an explicit reply (`pong`, `symbol_changed`/`symbol_error`, and
the search results respectively); `change_timeframe`, by contrast, is
answered only in historical mode and only when the historical fetch
succeeds — in live mode, or on a failed fetch, it is silently
ignored. -/
theorem command_reply_amended (mh : Bool) (cur : Str)
    (resolve defaults : Str → Option SymbolInfo)
    (hist : Str → Str → Bool) (cache : List (Str × SymbolInfo))
    (sym tf q : Str) (lim : Nat) :
    handle_client_message mh cur resolve defaults hist cache
        ClientCommand.ping = [ServerReply.pong] ∧
    handle_client_message mh cur resolve defaults hist cache
        (ClientCommand.change_symbol sym) ≠ [] ∧
    handle_client_message mh cur resolve defaults hist cache
        (ClientCommand.search_symbols q lim)
      = [ServerReply.symbol_search_results q (search_symbols cache q lim)] ∧
    (mh = true →
      handle_client_message mh cur resolve defaults hist cache
        (ClientCommand.change_timeframe tf) = []) ∧
    (mh = false → hist cur tf = true →
      handle_client_message mh cur resolve defaults hist cache
        (ClientCommand.change_timeframe tf)
        = [ServerReply.historical cur tf]) ∧
    (mh = false → hist cur tf = false →
      handle_client_message mh cur resolve defaults hist cache
        (ClientCommand.change_timeframe tf) = []) := by
  refine ⟨rfl, ?_, rfl, ?_, ?_, ?_⟩
  · unfold handle_client_message
    cases hres : resolve sym with
    | some info => simp only [hres]; split_ifs <;> simp
    | none =>
      cases hdef : defaults sym with
      | some info => simp only [hres, hdef]; split_ifs <;> simp
      | none => simp [hres, hdef]
  · intro hmh
    simp [handle_client_message, hmh]
  · intro hmh hh
    simp [handle_client_message, hmh, hh]
  · intro hmh hh
    simp [handle_client_message, hmh, hh]

/-- Witness for the amended C7 at concrete oracles: historical mode
with a succeeding fetch answers `change_timeframe` with the historical
payload, and a `change_symbol` for an unresolvable symbol still gets a
reply. -/
theorem command_reply_amended_witness :
    handle_client_message false ['T', 'C', 'S'] (fun _ => none)
        (fun _ => none) (fun _ _ => true) []
        (ClientCommand.change_symbol ['z']) ≠ [] ∧
    handle_client_message false ['T', 'C', 'S'] (fun _ => none)
        (fun _ => none) (fun _ _ => true) []
        (ClientCommand.change_timeframe ['1', 'd', 'a', 'y'])
      = [ServerReply.historical ['T', 'C', 'S'] ['1', 'd', 'a', 'y']] :=
  ⟨(command_reply_amended false ['T', 'C', 'S'] (fun _ => none)
      (fun _ => none) (fun _ _ => true) [] ['z'] ['1', 'd', 'a', 'y']
      [] 20).2.1,
   (command_reply_amended false ['T', 'C', 'S'] (fun _ => none)
      (fun _ => none) (fun _ _ => true) [] ['z'] ['1', 'd', 'a', 'y']
      [] 20).2.2.2.2.1 rfl rfl⟩

end OrderFlow
